import Mathlib

/-!
Verification of the incremental stock ETL reconciliation engine
(`ETL/stock_etl.py`, class `StockETL`).

The tabular datasets handled by the distributed compute engine are embedded
as Lean lists of records; the watermark document store is embedded as a list
of watermark records.  Timestamps are embedded as natural numbers (only their
ordering is ever used by the code).  The price/volume payload columns
(`open`, `high`, `low`, `close`, `volume`, `date`, `time`) are never read by
the reconciliation logic — every filter and aggregation touches only
`ticker`, `date_time`, `year` and `month` — so rows carry exactly those four
columns here; whole rows are kept or dropped, never rewritten, so omitting
payload columns does not change any of the verified behaviour.
-/

/-- One normalized input row, as produced by `read_prepare_input_files`:
ticker derived from the file name, `date_time` the parsed timestamp, and
`year` / `month` extracted from it (the partition columns). -/
structure Row where
  ticker : String
  date_time : Nat
  year : Nat
  month : Nat
deriving DecidableEq, Repr

/-- One watermark document of the `StockDataArtifacts` MongoDB collection,
keyed by ticker: row count plus oldest/latest timestamps.  `oldest_date` is
an `Option` because the incremental aggregation produces a SQL `NULL`
`oldest_date` for tickers outside the `new` set. -/
structure WatermarkRecord where
  ticker : String
  row_count : Nat
  oldest_date : Option Nat
  latest_date : Nat
deriving DecidableEq, Repr

/-- One run-artifact document of the `ETLArtifacts` collection: the ticker
classification recorded for one execution. -/
structure RunArtifact where
  tickers_missing : List String
  tickers_new : List String
  tickers_update : List String
  skip_writing : Bool
deriving DecidableEq, Repr

/-- The rows of a dataset belonging to one ticker (one `groupBy("ticker")`
group). -/
def tickerRows (df : List Row) (t : String) : List Row :=
  df.filter (fun r => decide (r.ticker = t))

/-- The distinct tickers of a dataset, in order of first appearance
(`stock_data.select("ticker").distinct()` / the key set of a
`groupBy("ticker")` aggregate). -/
def inputTickers (df : List Row) : List String :=
  (df.map Row.ticker).dedup

/-- `max("date_time")` over one ticker's group: the per-ticker entry of
`df_latest_dates_dict`.  `none` exactly when the ticker has no rows. -/
def maxDateTime (df : List Row) (t : String) : Option Nat :=
  ((tickerRows df t).map Row.date_time).max?

/-- Lookup in a python-style dict embedded as an association list
(`mongo_ticker_dict[ticker]`, `df_latest_dates_dict[ticker]`). -/
def dictLookup : List (String × Nat) → String → Option Nat
  | [], _ => none
  | (k, v) :: rest, t => if k = t then some v else dictLookup rest t

/-- Modelled from the spec: `export_ticker_data_from_mongo` lives in the
`db.stock_data_artifacts` module, which is not among the repository sources.
Per the spec's watermark-store boundary it projects the per-ticker watermark
documents to a dict `{ticker: latest_date}`, which is what
`validate_file_to_write` compares against. -/
def export_ticker_data_from_mongo (store : List WatermarkRecord) : List (String × Nat) :=
  store.map (fun w => (w.ticker, w.latest_date))

/-- Modelled from the spec: `create_first_etl_art_doc` lives in the
`db.etl_artifacts` module, which is not among the repository sources.  Per
the spec (§3 RunArtifact, §4.2 step 1) the first run-artifact document
records every distinct input ticker as `new`, with empty missing/updated
sets and the skip flag false. -/
def create_first_etl_art_doc (uniqueTickers : List String) : RunArtifact :=
  { tickers_missing := [], tickers_new := uniqueTickers,
    tickers_update := [], skip_writing := false }

/-- Modelled from the spec: `update_etl_artifacts` lives in the
`db.etl_artifacts` module, which is not among the repository sources.  It
records the run's classification outcome verbatim in the run-artifact
document. -/
def update_etl_artifacts (missing new upd : List String) (skip : Bool) : RunArtifact :=
  { tickers_missing := missing, tickers_new := new,
    tickers_update := upd, skip_writing := skip }

/-- The per-ticker comparison of `validate_file_to_write` for tickers
present in both the input and the mongo dict: the input's max `date_time`
is less than or equal to the stored `latest_date`
(`df_latest_dates_dict[ticker] <= mongo_ticker_dict[ticker]`).  `false`
when the ticker is absent from either side. -/
def isCurrentTicker (stock_data : List Row) (mongo : List (String × Nat))
    (t : String) : Bool :=
  match maxDateTime stock_data t, dictLookup mongo t with
  | some mx, some d => decide (mx ≤ d)
  | _, _ => false

/-- Result of `validate_file_to_write`: the returned (possibly filtered)
dataset together with the object state it mutates (`self.mode`,
`self.skip_writing`, `self.tickers_new`) and the classification lists it
builds.  On the bootstrap branch the source records the classification
(all distinct tickers new) only in the first run-artifact document; the
result's `tickers_new` mirrors that recorded classification — the
`overwrite`-mode aggregation path never reads the instance field. -/
structure ClassifyResult where
  filtered : List Row
  mode : String
  skip_writing : Bool
  tickers_new : List String
  tickers_missing : List String
  tickers_update : List String
  tickers_current : List String
  artifact : RunArtifact
deriving DecidableEq, Repr

/-- `StockETL.validate_file_to_write`, translated from the source.

If the mongo ticker dict is empty: create the first run-artifact document
over the distinct input tickers, switch the mode to `"overwrite"`, and
return the input dataset unfiltered.  Otherwise compute each input ticker's
max `date_time`; tickers only in the input are `new`, tickers only in mongo
are `missing`, tickers in both are `current` when the input max is `≤` the
stored `latest_date` and `updated` otherwise; rows of `current` tickers are
filtered out; the skip flag is set exactly when both `new` and `updated` are
empty; the classification is recorded in the run artifact. -/
def validate_file_to_write (stock_data : List Row) (mongo : List (String × Nat)) :
    ClassifyResult :=
  if mongo.isEmpty then
    let unique_tickers := inputTickers stock_data
    { filtered := stock_data, mode := "overwrite", skip_writing := false,
      tickers_new := unique_tickers, tickers_missing := [],
      tickers_update := [], tickers_current := [],
      artifact := create_first_etl_art_doc unique_tickers }
  else
    let tickers_df := inputTickers stock_data
    let tickers_new := tickers_df.filter (fun t => (dictLookup mongo t).isNone)
    let tickers_missing :=
      ((mongo.map Prod.fst).dedup).filter (fun t => decide (t ∉ tickers_df))
    let tickers_update :=
      tickers_df.filter (fun t =>
        (dictLookup mongo t).isSome && !(isCurrentTicker stock_data mongo t))
    let tickers_current :=
      tickers_df.filter (fun t =>
        (dictLookup mongo t).isSome && isCurrentTicker stock_data mongo t)
    let filtered := stock_data.filter (fun r => decide (r.ticker ∉ tickers_current))
    let skip := tickers_update.isEmpty && tickers_new.isEmpty
    { filtered := filtered, mode := "append", skip_writing := skip,
      tickers_new := tickers_new, tickers_missing := tickers_missing,
      tickers_update := tickers_update, tickers_current := tickers_current,
      artifact := update_etl_artifacts tickers_missing tickers_new tickers_update skip }

/-- One row of an aggregated per-ticker dataframe
(`groupBy("ticker").agg(...)`): the values upserted into the watermark
store.  `latest_date` is the SQL `max` over a non-empty group, so it is
never `NULL`; it is totalized with `0` for the (unreachable) empty group.
`oldest_date` is `none` when the SQL `min` ranges over no non-`NULL`
values. -/
structure AggRecord where
  ticker : String
  row_count : Nat
  latest_date : Nat
  oldest_date : Option Nat
deriving DecidableEq, Repr

/-- Modelled from the spec: `get_data` lives in the `db.stock_data_artifacts`
module, which is not among the repository sources.  Called with `years` and
`months` lists it reads the partitioned store restricted to those partition
values (the source calls it with the single year and month derived from the
input folder path). -/
def get_data_scoped (store : List Row) (years months : List Nat) : List Row :=
  store.filter (fun r => decide (r.year ∈ years) && decide (r.month ∈ months))

/-- The bootstrap aggregation of `create_save_stock_data_artifacts`
(`mode == "overwrite"` branch): per ticker, `count("*")`,
`min("date_time")` and `max("date_time")` over the whole store. -/
def aggregateFull (df : List Row) : List AggRecord :=
  (inputTickers df).map (fun t =>
    let g := tickerRows df t
    { ticker := t,
      row_count := g.length,
      latest_date := ((g.map Row.date_time).max?).getD 0,
      oldest_date := (g.map Row.date_time).min? })

/-- The incremental aggregation of `create_save_stock_data_artifacts`
(`else` branch): per ticker, `count("*")`, `max("date_time")`, and
`min(when(col("ticker").isin(tickers_new), col("date_time")))` — the `when`
with no `otherwise` yields `NULL` outside `tickers_new`, so the min is taken
over the group's rows whose ticker is in `tickers_new` and is `NULL` (here
`none`) when there are no such rows. -/
def aggregateIncremental (df : List Row) (tickersNew : List String) : List AggRecord :=
  (inputTickers df).map (fun t =>
    let g := tickerRows df t
    { ticker := t,
      row_count := g.length,
      latest_date := ((g.map Row.date_time).max?).getD 0,
      oldest_date :=
        (((g.filter (fun r => decide (r.ticker ∈ tickersNew))).map Row.date_time).min?) })

/-- Modelled from the spec: `add_first_stock_artifacts` lives in the
`db.stock_data_artifacts` module, which is not among the repository sources.
On the bootstrap run it inserts one watermark document per aggregated row
into the (empty) collection. -/
def add_first_stock_artifacts (store : List WatermarkRecord) (aggs : List AggRecord) :
    List WatermarkRecord :=
  store ++ aggs.map (fun a =>
    { ticker := a.ticker, row_count := a.row_count,
      oldest_date := a.oldest_date, latest_date := a.latest_date })

/-- The watermark document created from one aggregated row (the
create-if-absent side of the upsert). -/
def artifact_of_agg (a : AggRecord) : WatermarkRecord :=
  { ticker := a.ticker, row_count := a.row_count,
    oldest_date := a.oldest_date, latest_date := a.latest_date }

/-- The merge-update side of the upsert applied to one stored document:
if an aggregated row with the same ticker exists, overwrite `row_count` and
`latest_date` with the aggregate's values, and overwrite `oldest_date` only
when the aggregate's `oldest_date` is non-`NULL`. -/
def merge_artifact (aggs : List AggRecord) (w : WatermarkRecord) : WatermarkRecord :=
  match aggs.find? (fun a => decide (a.ticker = w.ticker)) with
  | none => w
  | some a =>
    { w with
      row_count := a.row_count
      latest_date := a.latest_date
      oldest_date :=
        (match a.oldest_date with
          | some d => some d
          | none => w.oldest_date) }

/-- Modelled from the spec: `update_stock_artifacts` lives in the
`db.stock_data_artifacts` module, which is not among the repository sources.
Per §4.3 it upserts one watermark record per aggregated row:
create-if-absent, else merge-update `row_count` and `latest_date`; a `NULL`
`oldest_date` in the aggregate leaves the stored `oldest_date` unchanged
(existing tickers keep their previously stored `oldest_date`). -/
def update_stock_artifacts (store : List WatermarkRecord) (aggs : List AggRecord) :
    List WatermarkRecord :=
  store.map (merge_artifact aggs) ++
    (aggs.filter (fun a =>
      decide (a.ticker ∉ store.map WatermarkRecord.ticker))).map artifact_of_agg

/-- `StockETL.create_save_stock_data_artifacts`, translated from the source:
on `"overwrite"` mode load the entire written table and insert the first
per-ticker artifacts; otherwise load only the run's month-scoped data
(`years=[self.year], months=[self.month]`) and upsert `row_count`,
`latest_date`, and (only for new tickers) `oldest_date`. -/
def create_save_stock_data_artifacts (mode : String) (tickers_new : List String)
    (y m : Nat) (disk : List Row) (store : List WatermarkRecord) :
    List WatermarkRecord :=
  if mode = "overwrite" then
    add_first_stock_artifacts store (aggregateFull disk)
  else
    update_stock_artifacts store
      (aggregateIncremental (get_data_scoped disk [y] [m]) tickers_new)

/-- `StockETL.write_partitioned_stock_data`, translated from the source: the
partitioned parquet write.  `"overwrite"` mode replaces the store's contents
with the dataset; `"append"` mode adds the dataset's rows to the existing
partitions. -/
def write_partitioned_stock_data (mode : String) (disk stock_data : List Row) :
    List Row :=
  if mode = "overwrite" then stock_data else disk ++ stock_data

/-- The external state a run reads and writes: the partitioned parquet store
and the per-ticker watermark collection. -/
structure ETLState where
  disk : List Row
  watermarks : List WatermarkRecord
deriving DecidableEq, Repr

/-- Outcome of one `run_etl` call: the final external state, the raised
error (if any), the skip flag, and the `api_artifacts` status report the
method returns. -/
structure RunOutcome where
  finalState : ETLState
  error : Option String
  skip_writing : Bool
  report : List (String × String)
deriving DecidableEq, Repr

/-- `StockETL.run_etl`, translated from the source: load (raising on an
empty input), classify against the watermark snapshot, write the filtered
dataset unless the skip flag is set, then aggregate and persist the
watermark artifacts; a write failure raises before the watermark step.  The
`writeOk` flag stands for the underlying storage engine's success, and the
`y`/`m` arguments are the year and month extracted from the input folder
path in `__init__`. -/
def run_etl (writeOk : Bool) (input : List Row) (y m : Nat) (st : ETLState) :
    RunOutcome :=
  if input.isEmpty then
    { finalState := st, error := some "The Stock Data is empty.",
      skip_writing := false, report := [] }
  else
    let c := validate_file_to_write input (export_ticker_data_from_mongo st.watermarks)
    let baseReport :=
      [("LoadingData", "Successful")] ++
      (if c.mode = "overwrite" then
        [("ETLArtifacts", "First artifacts created successfully")]
      else
        [("WritingMode",
          if c.skip_writing then "Data already up-to date. Write skipped" else c.mode),
         ("ETLArtifacts", "ETL Artifacts added successfully")])
    if c.skip_writing then
      { finalState :=
          { disk := st.disk,
            watermarks :=
              create_save_stock_data_artifacts c.mode c.tickers_new y m
                st.disk st.watermarks },
        error := none, skip_writing := true,
        report := baseReport ++ [("StockDataArtifacts", "Artifacts updated successfully")] }
    else if writeOk then
      let disk := write_partitioned_stock_data c.mode st.disk c.filtered
      { finalState :=
          { disk := disk,
            watermarks :=
              create_save_stock_data_artifacts c.mode c.tickers_new y m
                disk st.watermarks },
        error := none, skip_writing := false,
        report := baseReport ++
          [("WritingData", "Successful"),
           ("StockDataArtifacts",
            if c.mode = "overwrite" then "First artifacts created successfully"
            else "Artifacts updated successfully")] }
    else
      { finalState := st, error := some "Could not save data in StockData",
        skip_writing := false, report := baseReport }

/-! ### Helper lemmas about the embedded dataframe operations -/

theorem mem_inputTickers_iff {df : List Row} {t : String} :
    t ∈ inputTickers df ↔ ∃ r ∈ df, r.ticker = t := by
  simp [inputTickers, List.mem_dedup, List.mem_map]

theorem mem_tickerRows_iff {df : List Row} {t : String} {r : Row} :
    r ∈ tickerRows df t ↔ r ∈ df ∧ r.ticker = t := by
  simp [tickerRows, List.mem_filter]

theorem maxDateTime_mem_inputTickers {df : List Row} {t : String} {mx : Nat}
    (h : maxDateTime df t = some mx) : t ∈ inputTickers df := by
  have hne : tickerRows df t ≠ [] := by
    intro hnil
    rw [maxDateTime, hnil] at h
    simp at h
  obtain ⟨r, hr⟩ := List.exists_mem_of_ne_nil _ hne
  rcases mem_tickerRows_iff.mp hr with ⟨hrdf, hrt⟩
  exact mem_inputTickers_iff.mpr ⟨r, hrdf, hrt⟩

theorem maxDateTime_isSome_of_mem {df : List Row} {t : String}
    (h : t ∈ inputTickers df) : ∃ mx, maxDateTime df t = some mx := by
  rcases mem_inputTickers_iff.mp h with ⟨r, hrdf, hrt⟩
  have hmem : r ∈ tickerRows df t := mem_tickerRows_iff.mpr ⟨hrdf, hrt⟩
  cases hmx : maxDateTime df t with
  | some mx => exact ⟨mx, rfl⟩
  | none =>
    rw [maxDateTime] at hmx
    have hnil := List.map_eq_nil_iff.mp (List.max?_eq_none_iff.mp hmx)
    rw [hnil] at hmem
    exact absurd hmem (List.not_mem_nil r)

theorem dictLookup_isNone_iff {d : List (String × Nat)} {t : String} :
    (dictLookup d t).isNone ↔ t ∉ d.map Prod.fst := by
  induction d with
  | nil => simp [dictLookup]
  | cons p rest ih =>
    obtain ⟨k, v⟩ := p
    by_cases h : k = t
    · subst h
      simp [dictLookup]
    · simp only [dictLookup, if_neg h, List.map_cons, List.mem_cons]
      rw [ih]
      have htk : ¬ t = k := fun e => h e.symm
      constructor
      · intro hn hor
        rcases hor with h1 | h2
        · exact htk h1
        · exact hn h2
      · exact fun hn hmem => hn (Or.inr hmem)

theorem dictLookup_isSome_iff {d : List (String × Nat)} {t : String} :
    (dictLookup d t).isSome ↔ t ∈ d.map Prod.fst := by
  have hiff := dictLookup_isNone_iff (d := d) (t := t)
  rcases hd : dictLookup d t with _ | v <;> rw [hd] at hiff <;> simp at hiff ⊢
  · exact hiff
  · exact hiff

/-! ### Projections of `validate_file_to_write` on the incremental branch -/

theorem validate_tickers_new (sd : List Row) (mongo : List (String × Nat))
    (hm : mongo ≠ []) :
    (validate_file_to_write sd mongo).tickers_new =
      (inputTickers sd).filter (fun t => (dictLookup mongo t).isNone) := by
  cases mongo with
  | nil => exact absurd rfl hm
  | cons p rest => rfl

theorem validate_tickers_missing (sd : List Row) (mongo : List (String × Nat))
    (hm : mongo ≠ []) :
    (validate_file_to_write sd mongo).tickers_missing =
      ((mongo.map Prod.fst).dedup).filter (fun t => decide (t ∉ inputTickers sd)) := by
  cases mongo with
  | nil => exact absurd rfl hm
  | cons p rest => rfl

theorem validate_tickers_update (sd : List Row) (mongo : List (String × Nat))
    (hm : mongo ≠ []) :
    (validate_file_to_write sd mongo).tickers_update =
      (inputTickers sd).filter (fun t =>
        (dictLookup mongo t).isSome && !(isCurrentTicker sd mongo t)) := by
  cases mongo with
  | nil => exact absurd rfl hm
  | cons p rest => rfl

theorem validate_tickers_current (sd : List Row) (mongo : List (String × Nat))
    (hm : mongo ≠ []) :
    (validate_file_to_write sd mongo).tickers_current =
      (inputTickers sd).filter (fun t =>
        (dictLookup mongo t).isSome && isCurrentTicker sd mongo t) := by
  cases mongo with
  | nil => exact absurd rfl hm
  | cons p rest => rfl

theorem validate_filtered (sd : List Row) (mongo : List (String × Nat))
    (hm : mongo ≠ []) :
    (validate_file_to_write sd mongo).filtered =
      sd.filter (fun r =>
        decide (r.ticker ∉ (validate_file_to_write sd mongo).tickers_current)) := by
  cases mongo with
  | nil => exact absurd rfl hm
  | cons p rest => rfl

theorem validate_skip_writing (sd : List Row) (mongo : List (String × Nat))
    (hm : mongo ≠ []) :
    (validate_file_to_write sd mongo).skip_writing =
      ((validate_file_to_write sd mongo).tickers_update.isEmpty &&
       (validate_file_to_write sd mongo).tickers_new.isEmpty) := by
  cases mongo with
  | nil => exact absurd rfl hm
  | cons p rest => rfl

theorem validate_mode_append (sd : List Row) (mongo : List (String × Nat))
    (hm : mongo ≠ []) :
    (validate_file_to_write sd mongo).mode = "append" := by
  cases mongo with
  | nil => exact absurd rfl hm
  | cons p rest => rfl

/-! ### Claim theorems -/

/-- C1: for every non-empty input dataset, when the watermark snapshot is
empty, classification marks every distinct input ticker as new, sets the
write mode to `"overwrite"` (FULL), creates the first run artifact over
those tickers, returns the input dataset unfiltered, and does not set the
skip flag. -/
theorem bootstrap_full_overwrite (stock_data : List Row)
    (mongo : List (String × Nat)) (hne : stock_data ≠ []) (hm : mongo = []) :
    (validate_file_to_write stock_data mongo).tickers_new = inputTickers stock_data ∧
    (validate_file_to_write stock_data mongo).mode = "overwrite" ∧
    (validate_file_to_write stock_data mongo).artifact =
      create_first_etl_art_doc (inputTickers stock_data) ∧
    (validate_file_to_write stock_data mongo).artifact.tickers_new =
      inputTickers stock_data ∧
    (validate_file_to_write stock_data mongo).filtered = stock_data ∧
    (validate_file_to_write stock_data mongo).skip_writing = false := by
  subst hm
  exact ⟨rfl, rfl, rfl, rfl, rfl, rfl⟩

theorem bootstrap_full_overwrite_witness :
    (([⟨"AAPL", 5, 2024, 1⟩, ⟨"MSFT", 7, 2024, 1⟩] : List Row) ≠ [] ∧
      ([] : List (String × Nat)) = []) ∧
    ((validate_file_to_write [⟨"AAPL", 5, 2024, 1⟩, ⟨"MSFT", 7, 2024, 1⟩] []).tickers_new =
        inputTickers [⟨"AAPL", 5, 2024, 1⟩, ⟨"MSFT", 7, 2024, 1⟩] ∧
      (validate_file_to_write [⟨"AAPL", 5, 2024, 1⟩, ⟨"MSFT", 7, 2024, 1⟩] []).mode =
        "overwrite" ∧
      (validate_file_to_write [⟨"AAPL", 5, 2024, 1⟩, ⟨"MSFT", 7, 2024, 1⟩] []).artifact =
        create_first_etl_art_doc
          (inputTickers [⟨"AAPL", 5, 2024, 1⟩, ⟨"MSFT", 7, 2024, 1⟩]) ∧
      (validate_file_to_write
          [⟨"AAPL", 5, 2024, 1⟩, ⟨"MSFT", 7, 2024, 1⟩] []).artifact.tickers_new =
        inputTickers [⟨"AAPL", 5, 2024, 1⟩, ⟨"MSFT", 7, 2024, 1⟩] ∧
      (validate_file_to_write [⟨"AAPL", 5, 2024, 1⟩, ⟨"MSFT", 7, 2024, 1⟩] []).filtered =
        [⟨"AAPL", 5, 2024, 1⟩, ⟨"MSFT", 7, 2024, 1⟩] ∧
      (validate_file_to_write
          [⟨"AAPL", 5, 2024, 1⟩, ⟨"MSFT", 7, 2024, 1⟩] []).skip_writing = false) :=
  ⟨⟨by decide, rfl⟩,
    bootstrap_full_overwrite [⟨"AAPL", 5, 2024, 1⟩, ⟨"MSFT", 7, 2024, 1⟩] []
      (by decide) rfl⟩

/-- C2: on the incremental path, a ticker present in both the input and the
watermark snapshot is classified `current` (and not `updated`) when its
input max `date_time` equals the stored `latest_date`; it is classified
`updated` (and not `current`) exactly when the input max is strictly
greater. -/
theorem tie_break_equal_is_current (stock_data : List Row)
    (mongo : List (String × Nat)) (t : String) (mx d : Nat)
    (hm : mongo ≠ [])
    (hmx : maxDateTime stock_data t = some mx)
    (hd : dictLookup mongo t = some d) :
    (mx = d →
      t ∈ (validate_file_to_write stock_data mongo).tickers_current ∧
      t ∉ (validate_file_to_write stock_data mongo).tickers_update) ∧
    (d < mx →
      t ∈ (validate_file_to_write stock_data mongo).tickers_update ∧
      t ∉ (validate_file_to_write stock_data mongo).tickers_current) := by
  have hmem := maxDateTime_mem_inputTickers hmx
  have hsome : (dictLookup mongo t).isSome = true := by rw [hd]; rfl
  have hcur : isCurrentTicker stock_data mongo t = decide (mx ≤ d) := by
    rw [isCurrentTicker, hmx, hd]
  rw [validate_tickers_current stock_data mongo hm,
    validate_tickers_update stock_data mongo hm]
  constructor
  · intro heq
    subst heq
    constructor
    · rw [List.mem_filter]
      exact ⟨hmem, by rw [hsome, hcur]; simp⟩
    · rw [List.mem_filter]
      rintro ⟨-, hp⟩
      rw [hsome, hcur] at hp
      simp at hp
  · intro hlt
    constructor
    · rw [List.mem_filter]
      refine ⟨hmem, ?_⟩
      rw [hsome, hcur]
      simp [Nat.not_le.mpr hlt]
    · rw [List.mem_filter]
      rintro ⟨-, hp⟩
      rw [hsome, hcur] at hp
      simp [Nat.not_le.mpr hlt] at hp

theorem tie_break_equal_is_current_witness :
    (([("AAPL", (9 : Nat))] : List (String × Nat)) ≠ [] ∧
      maxDateTime [⟨"AAPL", 9, 2024, 1⟩] "AAPL" = some 9 ∧
      dictLookup [("AAPL", 9)] "AAPL" = some 9) ∧
    (((9 : Nat) = 9 →
      "AAPL" ∈ (validate_file_to_write [⟨"AAPL", 9, 2024, 1⟩]
          [("AAPL", 9)]).tickers_current ∧
      "AAPL" ∉ (validate_file_to_write [⟨"AAPL", 9, 2024, 1⟩]
          [("AAPL", 9)]).tickers_update) ∧
     ((9 : Nat) < 9 →
      "AAPL" ∈ (validate_file_to_write [⟨"AAPL", 9, 2024, 1⟩]
          [("AAPL", 9)]).tickers_update ∧
      "AAPL" ∉ (validate_file_to_write [⟨"AAPL", 9, 2024, 1⟩]
          [("AAPL", 9)]).tickers_current)) :=
  ⟨⟨by decide, by decide, by decide⟩,
    tie_break_equal_is_current [⟨"AAPL", 9, 2024, 1⟩] [("AAPL", 9)] "AAPL" 9 9
      (by decide) (by decide) (by decide)⟩

/-- C3: for every input dataset and watermark snapshot, the four
classification sets are pairwise disjoint, and every ticker appearing in
the input falls into (at least, hence with disjointness exactly) one of
`new`, `updated`, `current`. -/
theorem classification_partition (sd : List Row) (mongo : List (String × Nat)) :
    ((validate_file_to_write sd mongo).tickers_new.Disjoint
       (validate_file_to_write sd mongo).tickers_update ∧
     (validate_file_to_write sd mongo).tickers_new.Disjoint
       (validate_file_to_write sd mongo).tickers_current ∧
     (validate_file_to_write sd mongo).tickers_new.Disjoint
       (validate_file_to_write sd mongo).tickers_missing ∧
     (validate_file_to_write sd mongo).tickers_update.Disjoint
       (validate_file_to_write sd mongo).tickers_current ∧
     (validate_file_to_write sd mongo).tickers_update.Disjoint
       (validate_file_to_write sd mongo).tickers_missing ∧
     (validate_file_to_write sd mongo).tickers_current.Disjoint
       (validate_file_to_write sd mongo).tickers_missing) ∧
    ∀ t ∈ sd.map Row.ticker,
      t ∈ (validate_file_to_write sd mongo).tickers_new ∨
      t ∈ (validate_file_to_write sd mongo).tickers_update ∨
      t ∈ (validate_file_to_write sd mongo).tickers_current := by
  cases mongo with
  | nil =>
    refine ⟨⟨?_, ?_, ?_, ?_, ?_, ?_⟩, ?_⟩ <;>
      first
      | exact fun a _ hb => absurd hb (List.not_mem_nil a)
      | exact fun t ht => Or.inl (List.mem_dedup.mpr ht)
  | cons p rest =>
    have hm : (p :: rest : List (String × Nat)) ≠ [] := List.cons_ne_nil p rest
    rw [validate_tickers_new sd _ hm, validate_tickers_update sd _ hm,
        validate_tickers_current sd _ hm, validate_tickers_missing sd _ hm]
    refine ⟨⟨?_, ?_, ?_, ?_, ?_, ?_⟩, ?_⟩
    · intro a ha hb
      rw [List.mem_filter] at ha hb
      rcases Bool.and_eq_true_iff.mp hb.2 with ⟨hs, -⟩
      rw [Option.isNone_iff_eq_none] at ha
      rw [ha.2] at hs
      exact absurd hs (by simp)
    · intro a ha hb
      rw [List.mem_filter] at ha hb
      rcases Bool.and_eq_true_iff.mp hb.2 with ⟨hs, -⟩
      rw [Option.isNone_iff_eq_none] at ha
      rw [ha.2] at hs
      exact absurd hs (by simp)
    · intro a ha hb
      rw [List.mem_filter] at ha hb
      exact absurd ha.1 (of_decide_eq_true hb.2)
    · intro a ha hb
      rw [List.mem_filter] at ha hb
      rcases Bool.and_eq_true_iff.mp ha.2 with ⟨-, hnc⟩
      rcases Bool.and_eq_true_iff.mp hb.2 with ⟨-, hc⟩
      rw [hc] at hnc
      exact absurd hnc (by simp)
    · intro a ha hb
      rw [List.mem_filter] at ha hb
      exact absurd ha.1 (of_decide_eq_true hb.2)
    · intro a ha hb
      rw [List.mem_filter] at ha hb
      exact absurd ha.1 (of_decide_eq_true hb.2)
    · intro t ht
      have htm : t ∈ inputTickers sd := List.mem_dedup.mpr ht
      cases hl : dictLookup (p :: rest) t with
      | none =>
        exact Or.inl (List.mem_filter.mpr ⟨htm, by rw [hl]; rfl⟩)
      | some d =>
        cases hc : isCurrentTicker sd (p :: rest) t with
        | true =>
          exact Or.inr (Or.inr (List.mem_filter.mpr ⟨htm, by rw [hl, hc]; rfl⟩))
        | false =>
          exact Or.inr (Or.inl (List.mem_filter.mpr ⟨htm, by rw [hl, hc]; rfl⟩))

theorem classification_partition_witness :
    ((validate_file_to_write [⟨"AAPL", 9, 2024, 1⟩, ⟨"MSFT", 4, 2024, 1⟩]
        [("AAPL", 5), ("GOOG", 3)]).tickers_new.Disjoint
       (validate_file_to_write [⟨"AAPL", 9, 2024, 1⟩, ⟨"MSFT", 4, 2024, 1⟩]
        [("AAPL", 5), ("GOOG", 3)]).tickers_update ∧
     (validate_file_to_write [⟨"AAPL", 9, 2024, 1⟩, ⟨"MSFT", 4, 2024, 1⟩]
        [("AAPL", 5), ("GOOG", 3)]).tickers_new.Disjoint
       (validate_file_to_write [⟨"AAPL", 9, 2024, 1⟩, ⟨"MSFT", 4, 2024, 1⟩]
        [("AAPL", 5), ("GOOG", 3)]).tickers_current ∧
     (validate_file_to_write [⟨"AAPL", 9, 2024, 1⟩, ⟨"MSFT", 4, 2024, 1⟩]
        [("AAPL", 5), ("GOOG", 3)]).tickers_new.Disjoint
       (validate_file_to_write [⟨"AAPL", 9, 2024, 1⟩, ⟨"MSFT", 4, 2024, 1⟩]
        [("AAPL", 5), ("GOOG", 3)]).tickers_missing ∧
     (validate_file_to_write [⟨"AAPL", 9, 2024, 1⟩, ⟨"MSFT", 4, 2024, 1⟩]
        [("AAPL", 5), ("GOOG", 3)]).tickers_update.Disjoint
       (validate_file_to_write [⟨"AAPL", 9, 2024, 1⟩, ⟨"MSFT", 4, 2024, 1⟩]
        [("AAPL", 5), ("GOOG", 3)]).tickers_current ∧
     (validate_file_to_write [⟨"AAPL", 9, 2024, 1⟩, ⟨"MSFT", 4, 2024, 1⟩]
        [("AAPL", 5), ("GOOG", 3)]).tickers_update.Disjoint
       (validate_file_to_write [⟨"AAPL", 9, 2024, 1⟩, ⟨"MSFT", 4, 2024, 1⟩]
        [("AAPL", 5), ("GOOG", 3)]).tickers_missing ∧
     (validate_file_to_write [⟨"AAPL", 9, 2024, 1⟩, ⟨"MSFT", 4, 2024, 1⟩]
        [("AAPL", 5), ("GOOG", 3)]).tickers_current.Disjoint
       (validate_file_to_write [⟨"AAPL", 9, 2024, 1⟩, ⟨"MSFT", 4, 2024, 1⟩]
        [("AAPL", 5), ("GOOG", 3)]).tickers_missing) ∧
    ∀ t ∈ ([⟨"AAPL", 9, 2024, 1⟩, ⟨"MSFT", 4, 2024, 1⟩] : List Row).map Row.ticker,
      t ∈ (validate_file_to_write [⟨"AAPL", 9, 2024, 1⟩, ⟨"MSFT", 4, 2024, 1⟩]
        [("AAPL", 5), ("GOOG", 3)]).tickers_new ∨
      t ∈ (validate_file_to_write [⟨"AAPL", 9, 2024, 1⟩, ⟨"MSFT", 4, 2024, 1⟩]
        [("AAPL", 5), ("GOOG", 3)]).tickers_update ∨
      t ∈ (validate_file_to_write [⟨"AAPL", 9, 2024, 1⟩, ⟨"MSFT", 4, 2024, 1⟩]
        [("AAPL", 5), ("GOOG", 3)]).tickers_current :=
  classification_partition [⟨"AAPL", 9, 2024, 1⟩, ⟨"MSFT", 4, 2024, 1⟩]
    [("AAPL", 5), ("GOOG", 3)]

/-- C4: on the incremental path the filtered dataset equals the input with
exactly the rows of `current` tickers removed, and every row of a `new` or
`updated` ticker is retained. -/
theorem filtered_removes_exactly_current (sd : List Row)
    (mongo : List (String × Nat)) (hm : mongo ≠ []) :
    (∀ r : Row, r ∈ (validate_file_to_write sd mongo).filtered ↔
      (r ∈ sd ∧ r.ticker ∉ (validate_file_to_write sd mongo).tickers_current)) ∧
    (∀ r ∈ sd,
      (r.ticker ∈ (validate_file_to_write sd mongo).tickers_new ∨
       r.ticker ∈ (validate_file_to_write sd mongo).tickers_update) →
      r ∈ (validate_file_to_write sd mongo).filtered) := by
  constructor
  · intro r
    rw [validate_filtered sd mongo hm, List.mem_filter]
    constructor
    · rintro ⟨h1, h2⟩
      exact ⟨h1, of_decide_eq_true h2⟩
    · rintro ⟨h1, h2⟩
      exact ⟨h1, decide_eq_true h2⟩
  · intro r hr hmem
    have hnc : r.ticker ∉ (validate_file_to_write sd mongo).tickers_current := by
      rw [validate_tickers_current sd mongo hm]
      intro hc
      rw [List.mem_filter] at hc
      rcases Bool.and_eq_true_iff.mp hc.2 with ⟨hs, hcur⟩
      rcases hmem with hn | hu
      · rw [validate_tickers_new sd mongo hm, List.mem_filter] at hn
        rw [Option.isNone_iff_eq_none] at hn
        rw [hn.2] at hs
        exact absurd hs (by simp)
      · rw [validate_tickers_update sd mongo hm, List.mem_filter] at hu
        rcases Bool.and_eq_true_iff.mp hu.2 with ⟨-, hnc'⟩
        rw [hcur] at hnc'
        exact absurd hnc' (by simp)
    rw [validate_filtered sd mongo hm, List.mem_filter]
    exact ⟨hr, decide_eq_true hnc⟩

theorem filtered_removes_exactly_current_witness :
    (([("AAPL", (5 : Nat))] : List (String × Nat)) ≠ []) ∧
    ((∀ r : Row, r ∈ (validate_file_to_write
          [⟨"AAPL", 9, 2024, 1⟩, ⟨"MSFT", 4, 2024, 1⟩] [("AAPL", 5)]).filtered ↔
        (r ∈ [⟨"AAPL", 9, 2024, 1⟩, ⟨"MSFT", 4, 2024, 1⟩] ∧
         r.ticker ∉ (validate_file_to_write
            [⟨"AAPL", 9, 2024, 1⟩, ⟨"MSFT", 4, 2024, 1⟩]
            [("AAPL", 5)]).tickers_current)) ∧
     (∀ r ∈ ([⟨"AAPL", 9, 2024, 1⟩, ⟨"MSFT", 4, 2024, 1⟩] : List Row),
        (r.ticker ∈ (validate_file_to_write
            [⟨"AAPL", 9, 2024, 1⟩, ⟨"MSFT", 4, 2024, 1⟩] [("AAPL", 5)]).tickers_new ∨
         r.ticker ∈ (validate_file_to_write
            [⟨"AAPL", 9, 2024, 1⟩, ⟨"MSFT", 4, 2024, 1⟩] [("AAPL", 5)]).tickers_update) →
        r ∈ (validate_file_to_write
            [⟨"AAPL", 9, 2024, 1⟩, ⟨"MSFT", 4, 2024, 1⟩] [("AAPL", 5)]).filtered)) :=
  ⟨by decide,
    filtered_removes_exactly_current [⟨"AAPL", 9, 2024, 1⟩, ⟨"MSFT", 4, 2024, 1⟩]
      [("AAPL", 5)] (by decide)⟩

/-- C5: on the incremental path the skip flag is set iff both `new` and
`updated` are empty, and when it is set the orchestrator raises no error,
leaves the partitioned store untouched, still runs the aggregation/watermark
step, and returns a non-empty status report. -/
theorem skip_writing_noop (input : List Row) (y m : Nat) (st : ETLState)
    (writeOk : Bool) (hin : input ≠ []) (hw : st.watermarks ≠ []) :
    ((validate_file_to_write input
        (export_ticker_data_from_mongo st.watermarks)).skip_writing = true ↔
      ((validate_file_to_write input
          (export_ticker_data_from_mongo st.watermarks)).tickers_new = [] ∧
       (validate_file_to_write input
          (export_ticker_data_from_mongo st.watermarks)).tickers_update = [])) ∧
    ((validate_file_to_write input
        (export_ticker_data_from_mongo st.watermarks)).skip_writing = true →
      (run_etl writeOk input y m st).error = none ∧
      (run_etl writeOk input y m st).finalState.disk = st.disk ∧
      (run_etl writeOk input y m st).finalState.watermarks =
        create_save_stock_data_artifacts
          (validate_file_to_write input
            (export_ticker_data_from_mongo st.watermarks)).mode
          (validate_file_to_write input
            (export_ticker_data_from_mongo st.watermarks)).tickers_new
          y m st.disk st.watermarks ∧
      (run_etl writeOk input y m st).report ≠ []) := by
  have hmongo : export_ticker_data_from_mongo st.watermarks ≠ [] := by
    intro h
    rw [export_ticker_data_from_mongo] at h
    exact hw (List.map_eq_nil_iff.mp h)
  cases input with
  | nil => exact absurd rfl hin
  | cons a l =>
    constructor
    · rw [validate_skip_writing _ _ hmongo]
      rw [Bool.and_eq_true_iff]
      rw [List.isEmpty_iff, List.isEmpty_iff]
      exact and_comm
    · intro hskip
      simp only [run_etl, List.isEmpty_cons, Bool.false_eq_true, if_false, hskip, if_true]
      refine ⟨trivial, trivial, trivial, ?_⟩
      simp

theorem skip_writing_noop_witness :
    (([⟨"AAPL", 9, 2024, 1⟩] : List Row) ≠ [] ∧
     (ETLState.mk [⟨"AAPL", 9, 2024, 1⟩] [⟨"AAPL", 1, some 9, 9⟩]).watermarks ≠ []) ∧
    (((validate_file_to_write [⟨"AAPL", 9, 2024, 1⟩]
        (export_ticker_data_from_mongo
          (ETLState.mk [⟨"AAPL", 9, 2024, 1⟩]
            [⟨"AAPL", 1, some 9, 9⟩]).watermarks)).skip_writing = true ↔
      ((validate_file_to_write [⟨"AAPL", 9, 2024, 1⟩]
          (export_ticker_data_from_mongo
            (ETLState.mk [⟨"AAPL", 9, 2024, 1⟩]
              [⟨"AAPL", 1, some 9, 9⟩]).watermarks)).tickers_new = [] ∧
       (validate_file_to_write [⟨"AAPL", 9, 2024, 1⟩]
          (export_ticker_data_from_mongo
            (ETLState.mk [⟨"AAPL", 9, 2024, 1⟩]
              [⟨"AAPL", 1, some 9, 9⟩]).watermarks)).tickers_update = [])) ∧
    ((validate_file_to_write [⟨"AAPL", 9, 2024, 1⟩]
        (export_ticker_data_from_mongo
          (ETLState.mk [⟨"AAPL", 9, 2024, 1⟩]
            [⟨"AAPL", 1, some 9, 9⟩]).watermarks)).skip_writing = true →
      (run_etl true [⟨"AAPL", 9, 2024, 1⟩] 2024 1
        (ETLState.mk [⟨"AAPL", 9, 2024, 1⟩] [⟨"AAPL", 1, some 9, 9⟩])).error = none ∧
      (run_etl true [⟨"AAPL", 9, 2024, 1⟩] 2024 1
        (ETLState.mk [⟨"AAPL", 9, 2024, 1⟩]
          [⟨"AAPL", 1, some 9, 9⟩])).finalState.disk =
        (ETLState.mk [⟨"AAPL", 9, 2024, 1⟩] [⟨"AAPL", 1, some 9, 9⟩]).disk ∧
      (run_etl true [⟨"AAPL", 9, 2024, 1⟩] 2024 1
        (ETLState.mk [⟨"AAPL", 9, 2024, 1⟩]
          [⟨"AAPL", 1, some 9, 9⟩])).finalState.watermarks =
        create_save_stock_data_artifacts
          (validate_file_to_write [⟨"AAPL", 9, 2024, 1⟩]
            (export_ticker_data_from_mongo
              (ETLState.mk [⟨"AAPL", 9, 2024, 1⟩]
                [⟨"AAPL", 1, some 9, 9⟩]).watermarks)).mode
          (validate_file_to_write [⟨"AAPL", 9, 2024, 1⟩]
            (export_ticker_data_from_mongo
              (ETLState.mk [⟨"AAPL", 9, 2024, 1⟩]
                [⟨"AAPL", 1, some 9, 9⟩]).watermarks)).tickers_new
          2024 1
          (ETLState.mk [⟨"AAPL", 9, 2024, 1⟩] [⟨"AAPL", 1, some 9, 9⟩]).disk
          (ETLState.mk [⟨"AAPL", 9, 2024, 1⟩] [⟨"AAPL", 1, some 9, 9⟩]).watermarks ∧
      (run_etl true [⟨"AAPL", 9, 2024, 1⟩] 2024 1
        (ETLState.mk [⟨"AAPL", 9, 2024, 1⟩] [⟨"AAPL", 1, some 9, 9⟩])).report ≠ [])) :=
  ⟨⟨by decide, by decide⟩,
    skip_writing_noop [⟨"AAPL", 9, 2024, 1⟩] 2024 1
      (ETLState.mk [⟨"AAPL", 9, 2024, 1⟩] [⟨"AAPL", 1, some 9, 9⟩]) true
      (by decide) (by decide)⟩

/-- C9: when the partitioned write fails on a non-skip run, `run_etl`
surfaces the error and the watermark store (and the partitioned store) are
left exactly as they were — the watermark upsert never executes. -/
theorem write_failure_aborts_before_upsert (input : List Row) (y m : Nat)
    (st : ETLState) (hin : input ≠ [])
    (hskip : (validate_file_to_write input
        (export_ticker_data_from_mongo st.watermarks)).skip_writing = false) :
    (run_etl false input y m st).error.isSome = true ∧
    (run_etl false input y m st).finalState.watermarks = st.watermarks ∧
    (run_etl false input y m st).finalState.disk = st.disk := by
  cases input with
  | nil => exact absurd rfl hin
  | cons a l =>
    simp only [run_etl, List.isEmpty_cons, Bool.false_eq_true, if_false, hskip]
    exact ⟨rfl, trivial, trivial⟩

theorem write_failure_aborts_before_upsert_witness :
    (([⟨"AAPL", 9, 2024, 1⟩] : List Row) ≠ [] ∧
     (validate_file_to_write [⟨"AAPL", 9, 2024, 1⟩]
        (export_ticker_data_from_mongo
          (ETLState.mk [] [⟨"MSFT", 1, some 1, 5⟩]).watermarks)).skip_writing = false) ∧
    ((run_etl false [⟨"AAPL", 9, 2024, 1⟩] 2024 1
        (ETLState.mk [] [⟨"MSFT", 1, some 1, 5⟩])).error.isSome = true ∧
     (run_etl false [⟨"AAPL", 9, 2024, 1⟩] 2024 1
        (ETLState.mk [] [⟨"MSFT", 1, some 1, 5⟩])).finalState.watermarks =
       (ETLState.mk [] [⟨"MSFT", 1, some 1, 5⟩]).watermarks ∧
     (run_etl false [⟨"AAPL", 9, 2024, 1⟩] 2024 1
        (ETLState.mk [] [⟨"MSFT", 1, some 1, 5⟩])).finalState.disk =
       (ETLState.mk [] [⟨"MSFT", 1, some 1, 5⟩]).disk) :=
  ⟨⟨by decide, by decide⟩,
    write_failure_aborts_before_upsert [⟨"AAPL", 9, 2024, 1⟩] 2024 1
      (ETLState.mk [] [⟨"MSFT", 1, some 1, 5⟩]) (by decide) (by decide)⟩

/-- The incremental aggregation yields a `NULL` (`none`) `oldest_date` for
every record whose ticker is outside `tickersNew`: the conditional
`min(when(isin(tickers_new), date_time))` ranges over no values there. -/
theorem aggregateIncremental_oldest_of_not_new {df : List Row}
    {tickersNew : List String} {a : AggRecord}
    (ha : a ∈ aggregateIncremental df tickersNew)
    (hnot : a.ticker ∉ tickersNew) :
    a.oldest_date = none := by
  rw [aggregateIncremental] at ha
  rcases List.mem_map.mp ha with ⟨t, htmem, hteq⟩
  subst hteq
  have hnt : t ∉ tickersNew := hnot
  have hfil : (tickerRows df t).filter (fun r => decide (r.ticker ∈ tickersNew)) = [] := by
    rw [List.filter_eq_nil_iff]
    intro r hr
    rcases mem_tickerRows_iff.mp hr with ⟨-, hrt⟩
    simp [hrt, hnt]
  show ((((tickerRows df t).filter
      (fun r => decide (r.ticker ∈ tickersNew))).map Row.date_time).min?) = none
  rw [hfil]
  rfl

/-- C10: on the incremental aggregation path, the aggregated record passed
to the watermark upsert carries `none` (`NULL`) as `oldest_date` for every
ticker not in the new set. -/
theorem upsert_input_oldest_null_for_existing (df : List Row)
    (tickersNew : List String) (a : AggRecord)
    (ha : a ∈ aggregateIncremental df tickersNew)
    (hnot : a.ticker ∉ tickersNew) :
    a.oldest_date = none :=
  aggregateIncremental_oldest_of_not_new ha hnot

theorem upsert_input_oldest_null_for_existing_witness :
    ((⟨"AAPL", 1, 9, none⟩ : AggRecord) ∈
        aggregateIncremental [⟨"AAPL", 9, 2024, 1⟩] [] ∧
     (⟨"AAPL", 1, 9, none⟩ : AggRecord).ticker ∉ ([] : List String)) ∧
    (⟨"AAPL", 1, 9, none⟩ : AggRecord).oldest_date = none :=
  ⟨⟨by decide, by decide⟩,
    upsert_input_oldest_null_for_existing [⟨"AAPL", 9, 2024, 1⟩] []
      ⟨"AAPL", 1, 9, none⟩ (by decide) (by decide)⟩

/-- One ticker's group of the month-scoped aggregation input equals the
disk rows of that ticker in that year and month. -/
theorem tickerRows_scoped (disk : List Row) (y m : Nat) (t : String) :
    tickerRows (get_data_scoped disk [y] [m]) t =
      disk.filter (fun r => decide (r.ticker = t ∧ r.year = y ∧ r.month = m)) := by
  rw [tickerRows, get_data_scoped, List.filter_filter]
  apply List.filter_congr
  intro r _
  simp [Bool.decide_and, List.mem_singleton, Bool.and_comm, Bool.and_left_comm, Bool.and_assoc]

/-- C8: on incremental runs `create_save_stock_data_artifacts` upserts the
aggregate of the month-scoped read `get_data_scoped disk [y] [m]` (the
single year and month derived from the input folder path), and each
aggregated record's `row_count` and `latest_date` are computed over exactly
the disk rows of that ticker in that year and month. -/
theorem month_scoped_aggregation (disk : List Row) (store : List WatermarkRecord)
    (tickersNew : List String) (y m : Nat) (a : AggRecord)
    (ha : a ∈ aggregateIncremental (get_data_scoped disk [y] [m]) tickersNew) :
    create_save_stock_data_artifacts "append" tickersNew y m disk store =
      update_stock_artifacts store
        (aggregateIncremental (get_data_scoped disk [y] [m]) tickersNew) ∧
    a.row_count = (disk.filter (fun r =>
        decide (r.ticker = a.ticker ∧ r.year = y ∧ r.month = m))).length ∧
    a.latest_date = (((disk.filter (fun r =>
        decide (r.ticker = a.ticker ∧ r.year = y ∧ r.month = m))).map
          Row.date_time).max?).getD 0 := by
  constructor
  · rfl
  rw [aggregateIncremental] at ha
  rcases List.mem_map.mp ha with ⟨t, htmem, hteq⟩
  subst hteq
  constructor
  · show (tickerRows (get_data_scoped disk [y] [m]) t).length = _
    rw [tickerRows_scoped]
  · show ((((tickerRows (get_data_scoped disk [y] [m]) t).map Row.date_time).max?).getD 0) = _
    rw [tickerRows_scoped]

theorem month_scoped_aggregation_witness :
    ((⟨"AAPL", 1, 5, none⟩ : AggRecord) ∈
        aggregateIncremental
          (get_data_scoped [⟨"AAPL", 5, 2024, 1⟩, ⟨"AAPL", 7, 2023, 12⟩] [2024] [1]) []) ∧
    (create_save_stock_data_artifacts "append" [] 2024 1
        [⟨"AAPL", 5, 2024, 1⟩, ⟨"AAPL", 7, 2023, 12⟩] [⟨"AAPL", 2, some 5, 7⟩] =
      update_stock_artifacts [⟨"AAPL", 2, some 5, 7⟩]
        (aggregateIncremental
          (get_data_scoped [⟨"AAPL", 5, 2024, 1⟩, ⟨"AAPL", 7, 2023, 12⟩] [2024] [1]) []) ∧
     (⟨"AAPL", 1, 5, none⟩ : AggRecord).row_count =
      (([⟨"AAPL", 5, 2024, 1⟩, ⟨"AAPL", 7, 2023, 12⟩] : List Row).filter (fun r =>
        decide (r.ticker = (⟨"AAPL", 1, 5, none⟩ : AggRecord).ticker ∧
          r.year = 2024 ∧ r.month = 1))).length ∧
     (⟨"AAPL", 1, 5, none⟩ : AggRecord).latest_date =
      (((([⟨"AAPL", 5, 2024, 1⟩, ⟨"AAPL", 7, 2023, 12⟩] : List Row).filter (fun r =>
        decide (r.ticker = (⟨"AAPL", 1, 5, none⟩ : AggRecord).ticker ∧
          r.year = 2024 ∧ r.month = 1))).map Row.date_time).max?).getD 0) :=
  ⟨by decide,
    month_scoped_aggregation [⟨"AAPL", 5, 2024, 1⟩, ⟨"AAPL", 7, 2023, 12⟩]
      [⟨"AAPL", 2, some 5, 7⟩] [] 2024 1 ⟨"AAPL", 1, 5, none⟩ (by decide)⟩

theorem merge_artifact_of_find?_none {aggs : List AggRecord} {w : WatermarkRecord}
    (h : aggs.find? (fun a => decide (a.ticker = w.ticker)) = none) :
    merge_artifact aggs w = w := by
  rw [merge_artifact, h]

theorem merge_artifact_of_find?_some {aggs : List AggRecord} {w : WatermarkRecord}
    {b : AggRecord}
    (h : aggs.find? (fun a => decide (a.ticker = w.ticker)) = some b) :
    merge_artifact aggs w =
      { w with
        row_count := b.row_count
        latest_date := b.latest_date
        oldest_date :=
          (match b.oldest_date with
            | some d => some d
            | none => w.oldest_date) } := by
  rw [merge_artifact, h]

/-- C7: the incremental aggregation computes `oldest_date = min(date_time)`
only for tickers in the new set, and the upsert keeps the previously stored
`oldest_date` of every ticker outside the new set (it is never overwritten
from the partial, month-scoped scan). -/
theorem oldest_date_never_overwritten (df : List Row) (tickersNew : List String)
    (store : List WatermarkRecord)
    (hnodup : (store.map WatermarkRecord.ticker).Nodup) :
    (∀ a ∈ aggregateIncremental df tickersNew,
        a.ticker ∈ tickersNew →
        a.oldest_date = ((tickerRows df a.ticker).map Row.date_time).min?) ∧
    (∀ w ∈ store, w.ticker ∉ tickersNew →
      ∀ w' ∈ update_stock_artifacts store (aggregateIncremental df tickersNew),
        w'.ticker = w.ticker → w'.oldest_date = w.oldest_date) := by
  constructor
  · intro a ha hmem
    rw [aggregateIncremental] at ha
    rcases List.mem_map.mp ha with ⟨t, htmem, hteq⟩
    subst hteq
    have hmem' : t ∈ tickersNew := hmem
    have hfil : (tickerRows df t).filter (fun r => decide (r.ticker ∈ tickersNew))
        = tickerRows df t := by
      rw [List.filter_eq_self]
      intro r hr
      rcases mem_tickerRows_iff.mp hr with ⟨-, hrt⟩
      rw [hrt]
      exact decide_eq_true hmem'
    show (((tickerRows df t).filter
        (fun r => decide (r.ticker ∈ tickersNew))).map Row.date_time).min? = _
    rw [hfil]
  · intro w hw hwnot w' hw' hticker
    simp only [update_stock_artifacts] at hw'
    rcases List.mem_append.mp hw' with hmerge | hins
    · rcases List.mem_map.mp hmerge with ⟨u, humem, hueq⟩
      subst hueq
      cases hf : (aggregateIncremental df tickersNew).find?
          (fun a => decide (a.ticker = u.ticker)) with
      | none =>
        rw [merge_artifact_of_find?_none hf] at hticker ⊢
        have huw : u = w := List.inj_on_of_nodup_map hnodup humem hw hticker
        rw [huw]
      | some b =>
        rw [merge_artifact_of_find?_some hf] at hticker ⊢
        have hsome := List.find?_some hf
        have hbt : b.ticker = u.ticker := of_decide_eq_true hsome
        have hbmem : b ∈ aggregateIncremental df tickersNew :=
          List.mem_of_find?_eq_some hf
        have hut : u.ticker = w.ticker := hticker
        have huw : u = w := List.inj_on_of_nodup_map hnodup humem hw hut
        have hbnot : b.ticker ∉ tickersNew := by
          rw [hbt, hut]
          exact hwnot
        have hnone := aggregateIncremental_oldest_of_not_new hbmem hbnot
        show (match b.oldest_date with
              | some d => some d
              | none => u.oldest_date) = w.oldest_date
        rw [hnone, huw]
    · rcases List.mem_map.mp hins with ⟨a, hamem, haeq⟩
      subst haeq
      rw [List.mem_filter] at hamem
      have hnotin : a.ticker ∉ store.map WatermarkRecord.ticker :=
        of_decide_eq_true hamem.2
      have hwt : w.ticker ∈ store.map WatermarkRecord.ticker :=
        List.mem_map_of_mem WatermarkRecord.ticker hw
      have : a.ticker = w.ticker := hticker
      rw [this] at hnotin
      exact absurd hwt hnotin

theorem oldest_date_never_overwritten_witness :
    (([⟨"AAPL", 2, some 5, 7⟩] : List WatermarkRecord).map
        WatermarkRecord.ticker).Nodup ∧
    ((∀ a ∈ aggregateIncremental [⟨"AAPL", 9, 2024, 1⟩, ⟨"MSFT", 4, 2024, 1⟩] ["MSFT"],
        a.ticker ∈ ["MSFT"] →
        a.oldest_date = ((tickerRows [⟨"AAPL", 9, 2024, 1⟩, ⟨"MSFT", 4, 2024, 1⟩]
          a.ticker).map Row.date_time).min?) ∧
     (∀ w ∈ ([⟨"AAPL", 2, some 5, 7⟩] : List WatermarkRecord),
        w.ticker ∉ ["MSFT"] →
        ∀ w' ∈ update_stock_artifacts [⟨"AAPL", 2, some 5, 7⟩]
            (aggregateIncremental [⟨"AAPL", 9, 2024, 1⟩, ⟨"MSFT", 4, 2024, 1⟩] ["MSFT"]),
          w'.ticker = w.ticker → w'.oldest_date = w.oldest_date)) :=
  ⟨by decide,
    oldest_date_never_overwritten [⟨"AAPL", 9, 2024, 1⟩, ⟨"MSFT", 4, 2024, 1⟩]
      ["MSFT"] [⟨"AAPL", 2, some 5, 7⟩] (by decide)⟩

/-! ### Helper lemmas for the no-op idempotence analysis -/

theorem merge_artifact_ticker (aggs : List AggRecord) (w : WatermarkRecord) :
    (merge_artifact aggs w).ticker = w.ticker := by
  rw [merge_artifact]
  cases aggs.find? (fun a => decide (a.ticker = w.ticker)) <;> rfl

theorem find?_ticker_map_merge (S : List WatermarkRecord) (aggs : List AggRecord)
    (t : String) :
    (S.map (merge_artifact aggs)).find? (fun w => decide (w.ticker = t)) =
      (S.find? (fun w => decide (w.ticker = t))).map (merge_artifact aggs) := by
  induction S with
  | nil => rfl
  | cons w S ih =>
    rw [List.map_cons]
    by_cases h : w.ticker = t
    · rw [List.find?_cons_of_pos _ (by simp [merge_artifact_ticker, h]),
        List.find?_cons_of_pos _ (by simp [h])]
      rfl
    · rw [List.find?_cons_of_neg _ (by simp [merge_artifact_ticker, h]),
        List.find?_cons_of_neg _ (by simp [h]), ih]

theorem dictLookup_export_eq_find? (S : List WatermarkRecord) (t : String) :
    dictLookup (export_ticker_data_from_mongo S) t =
      (S.find? (fun w => decide (w.ticker = t))).map WatermarkRecord.latest_date := by
  induction S with
  | nil => rfl
  | cons w S ih =>
    rw [export_ticker_data_from_mongo, List.map_cons]
    by_cases h : w.ticker = t
    · rw [List.find?_cons_of_pos _ (by simp [h])]
      show (if w.ticker = t then some w.latest_date else _) = _
      rw [if_pos h]
      rfl
    · rw [List.find?_cons_of_neg _ (by simp [h])]
      show (if w.ticker = t then some w.latest_date else
        dictLookup (export_ticker_data_from_mongo S) t) = _
      rw [if_neg h, ih]

theorem aggregateIncremental_latest (df : List Row) (tk : List String)
    (a : AggRecord) (ha : a ∈ aggregateIncremental df tk) :
    maxDateTime df a.ticker = some a.latest_date := by
  rw [aggregateIncremental] at ha
  rcases List.mem_map.mp ha with ⟨t, htmem, hteq⟩
  subst hteq
  rcases maxDateTime_isSome_of_mem htmem with ⟨dmax, hdmax⟩
  show maxDateTime df t = some ((maxDateTime df t).getD 0)
  rw [hdmax]
  rfl

theorem aggregateIncremental_tickers (df : List Row) (tk : List String) :
    (aggregateIncremental df tk).map AggRecord.ticker = inputTickers df := by
  rw [aggregateIncremental, List.map_map]
  exact List.map_id'' (fun t => rfl) _

theorem find?_self_of_nodup {α β : Type} [DecidableEq β] (f : α → β)
    (l : List α) (hnodup : (l.map f).Nodup) (a : α) (ha : a ∈ l) :
    l.find? (fun x => decide (f x = f a)) = some a := by
  induction l with
  | nil => exact absurd ha (List.not_mem_nil a)
  | cons b l ih =>
    rw [List.map_cons, List.nodup_cons] at hnodup
    rcases List.mem_cons.mp ha with rfl | hmem
    · exact List.find?_cons_of_pos _ (by simp)
    · have hne : f b ≠ f a := by
        intro he
        exact hnodup.1 (he ▸ List.mem_map_of_mem f hmem)
      rw [List.find?_cons_of_neg _ (by simp [hne]), ih hnodup.2 hmem]

theorem ticker_mem_update_stock_artifacts (S : List WatermarkRecord)
    (aggs : List AggRecord) (a : AggRecord) (ha : a ∈ aggs) :
    a.ticker ∈ (update_stock_artifacts S aggs).map WatermarkRecord.ticker := by
  rw [update_stock_artifacts, List.map_append]
  by_cases h : a.ticker ∈ S.map WatermarkRecord.ticker
  · apply List.mem_append_left
    rw [List.map_map]
    rcases List.mem_map.mp h with ⟨w, hw, hwt⟩
    exact List.mem_map.mpr ⟨w, hw, by
      rw [Function.comp_apply, merge_artifact_ticker, hwt]⟩
  · apply List.mem_append_right
    rw [List.map_map]
    exact List.mem_map.mpr ⟨a, List.mem_filter.mpr ⟨ha, decide_eq_true h⟩, rfl⟩

theorem merge_artifact_idem (aggs : List AggRecord)
    (hnone : ∀ a ∈ aggs, a.oldest_date = none) (w : WatermarkRecord) :
    merge_artifact aggs (merge_artifact aggs w) = merge_artifact aggs w := by
  cases hf : aggs.find? (fun a => decide (a.ticker = w.ticker)) with
  | none =>
    rw [merge_artifact_of_find?_none hf, merge_artifact_of_find?_none hf]
  | some b =>
    have hb : b.oldest_date = none := hnone b (List.mem_of_find?_eq_some hf)
    have h1 : merge_artifact aggs w =
        { w with
          row_count := b.row_count
          latest_date := b.latest_date } := by
      rw [merge_artifact_of_find?_some hf, hb]
    rw [h1]
    have hf2 : aggs.find? (fun a => decide (a.ticker =
        ({ w with
            row_count := b.row_count
            latest_date := b.latest_date } : WatermarkRecord).ticker)) = some b := hf
    rw [merge_artifact_of_find?_some hf2, hb]

theorem merge_artifact_artifact_of_agg (aggs : List AggRecord)
    (hnodup : (aggs.map AggRecord.ticker).Nodup)
    (hnone : ∀ a ∈ aggs, a.oldest_date = none)
    (a : AggRecord) (ha : a ∈ aggs) :
    merge_artifact aggs (artifact_of_agg a) = artifact_of_agg a := by
  have hf : aggs.find? (fun x =>
      decide (x.ticker = (artifact_of_agg a).ticker)) = some a :=
    find?_self_of_nodup AggRecord.ticker aggs hnodup a ha
  rw [merge_artifact_of_find?_some hf, hnone a ha]
  rfl

theorem update_stock_artifacts_idem (S : List WatermarkRecord)
    (aggs : List AggRecord)
    (hnodup : (aggs.map AggRecord.ticker).Nodup)
    (hnone : ∀ a ∈ aggs, a.oldest_date = none) :
    update_stock_artifacts (update_stock_artifacts S aggs) aggs =
      update_stock_artifacts S aggs := by
  have hfil : aggs.filter (fun a =>
      decide (a.ticker ∉ (update_stock_artifacts S aggs).map
        WatermarkRecord.ticker)) = [] := by
    rw [List.filter_eq_nil_iff]
    intro a ha hdec
    exact (of_decide_eq_true hdec) (ticker_mem_update_stock_artifacts S aggs a ha)
  have hpt : ∀ w' ∈ update_stock_artifacts S aggs,
      merge_artifact aggs w' = id w' := by
    intro w' hw'
    rw [update_stock_artifacts] at hw'
    rcases List.mem_append.mp hw' with hmerge | hins
    · rcases List.mem_map.mp hmerge with ⟨w, -, hweq⟩
      subst hweq
      exact merge_artifact_idem aggs hnone w
    · rcases List.mem_map.mp hins with ⟨a, hamem, haeq⟩
      subst haeq
      exact merge_artifact_artifact_of_agg aggs hnodup hnone a
        (List.mem_filter.mp hamem).1
  conv_lhs => rw [update_stock_artifacts]
  rw [hfil, List.map_congr_left hpt, List.map_id]
  simp

theorem skip_implies_sets_empty (sd : List Row) (mongo : List (String × Nat))
    (hm : mongo ≠ [])
    (hskip : (validate_file_to_write sd mongo).skip_writing = true) :
    (validate_file_to_write sd mongo).tickers_new = [] ∧
    (validate_file_to_write sd mongo).tickers_update = [] := by
  rw [validate_skip_writing sd mongo hm] at hskip
  rcases Bool.and_eq_true_iff.mp hskip with ⟨h1, h2⟩
  exact ⟨List.isEmpty_iff.mp h2, List.isEmpty_iff.mp h1⟩

theorem run_etl_skip_state (writeOk : Bool) (input : List Row) (y m : Nat)
    (st : ETLState) (hin : input ≠ [])
    (hskip : (validate_file_to_write input
        (export_ticker_data_from_mongo st.watermarks)).skip_writing = true) :
    (run_etl writeOk input y m st).finalState.disk = st.disk ∧
    (run_etl writeOk input y m st).finalState.watermarks =
      create_save_stock_data_artifacts
        (validate_file_to_write input
          (export_ticker_data_from_mongo st.watermarks)).mode
        (validate_file_to_write input
          (export_ticker_data_from_mongo st.watermarks)).tickers_new
        y m st.disk st.watermarks ∧
    (run_etl writeOk input y m st).skip_writing = true := by
  cases input with
  | nil => exact absurd rfl hin
  | cons a l =>
    simp only [run_etl, List.isEmpty_cons, Bool.false_eq_true, if_false, hskip, if_true]
    exact ⟨trivial, trivial, trivial⟩

/-- C6 (amended): running the pipeline twice with identical input against a
watermark store that is already current (the first run classifies nothing
new or updated, so it skips) yields `skip_writing = true` on the second run
and leaves the stored watermark values unchanged after the second run,
provided the partitioned store is consistent with the input: whenever both
are defined, each ticker's max `date_time` over the month-scoped disk data
is at least its max input `date_time`.  (Without that consistency
hypothesis the skip run's upsert can lower a stored `latest_date` to the
month-scoped disk maximum, making the second run classify the ticker as
updated — see the counterexample.) -/
theorem noop_idempotence_amended (input : List Row) (y m : Nat) (st : ETLState)
    (hin : input ≠ []) (hwm : st.watermarks ≠ [])
    (hcur : (validate_file_to_write input
        (export_ticker_data_from_mongo st.watermarks)).skip_writing = true)
    (hdisk : ∀ (t : String) (mx dmax : Nat), maxDateTime input t = some mx →
        maxDateTime (get_data_scoped st.disk [y] [m]) t = some dmax → mx ≤ dmax) :
    (run_etl true input y m (run_etl true input y m st).finalState).skip_writing
      = true ∧
    (run_etl true input y m
        (run_etl true input y m st).finalState).finalState.watermarks =
      (run_etl true input y m st).finalState.watermarks := by
  have hexp : export_ticker_data_from_mongo st.watermarks ≠ [] := by
    intro h
    rw [export_ticker_data_from_mongo] at h
    exact hwm (List.map_eq_nil_iff.mp h)
  obtain ⟨hnew1, hupd1⟩ := skip_implies_sets_empty input _ hexp hcur
  obtain ⟨hd1, hw1, hs1⟩ := run_etl_skip_state true input y m st hin hcur
  rw [validate_mode_append input _ hexp, hnew1] at hw1
  have hw1' : (run_etl true input y m st).finalState.watermarks =
      update_stock_artifacts st.watermarks
        (aggregateIncremental (get_data_scoped st.disk [y] [m]) []) := hw1
  have haggnone : ∀ a ∈ aggregateIncremental (get_data_scoped st.disk [y] [m]) [],
      a.oldest_date = none := fun a ha =>
    aggregateIncremental_oldest_of_not_new ha (by simp)
  have haggnodup : ((aggregateIncremental
      (get_data_scoped st.disk [y] [m]) []).map AggRecord.ticker).Nodup := by
    rw [aggregateIncremental_tickers]
    exact List.nodup_dedup _
  have hcur2 : ∀ t ∈ inputTickers input,
      ∃ d1, dictLookup (export_ticker_data_from_mongo
          ((run_etl true input y m st).finalState.watermarks)) t = some d1 ∧
        ∀ mx, maxDateTime input t = some mx → mx ≤ d1 := by
    intro t ht
    have hnotnew : ¬ (dictLookup
        (export_ticker_data_from_mongo st.watermarks) t).isNone = true := by
      intro hdec
      have hmem : t ∈ (validate_file_to_write input
          (export_ticker_data_from_mongo st.watermarks)).tickers_new := by
        rw [validate_tickers_new input _ hexp]
        exact List.mem_filter.mpr ⟨ht, hdec⟩
      rw [hnew1] at hmem
      exact absurd hmem (List.not_mem_nil t)
    obtain ⟨w0, hw0⟩ : ∃ w0,
        st.watermarks.find? (fun w => decide (w.ticker = t)) = some w0 := by
      cases hf : st.watermarks.find? (fun w => decide (w.ticker = t)) with
      | none =>
        exfalso
        apply hnotnew
        rw [dictLookup_export_eq_find?, hf]
        rfl
      | some w0 => exact ⟨w0, rfl⟩
    have hsome0 := List.find?_some hw0
    have hw0t : w0.ticker = t := of_decide_eq_true hsome0
    have hlook0 : dictLookup (export_ticker_data_from_mongo st.watermarks) t =
        some w0.latest_date := by
      rw [dictLookup_export_eq_find?, hw0]
      rfl
    have hfind1 : ((run_etl true input y m st).finalState.watermarks).find?
        (fun w => decide (w.ticker = t)) =
        some (merge_artifact
          (aggregateIncremental (get_data_scoped st.disk [y] [m]) []) w0) := by
      rw [hw1', update_stock_artifacts, List.find?_append,
        find?_ticker_map_merge, hw0]
      rfl
    refine ⟨(merge_artifact
        (aggregateIncremental (get_data_scoped st.disk [y] [m]) []) w0).latest_date,
      ?_, ?_⟩
    · rw [dictLookup_export_eq_find?, hfind1]
      rfl
    · intro mx hmx
      have hnotupd : ¬ ((dictLookup
            (export_ticker_data_from_mongo st.watermarks) t).isSome &&
          !(isCurrentTicker input
            (export_ticker_data_from_mongo st.watermarks) t)) = true := by
        intro hdec
        have hmem : t ∈ (validate_file_to_write input
            (export_ticker_data_from_mongo st.watermarks)).tickers_update := by
          rw [validate_tickers_update input _ hexp]
          exact List.mem_filter.mpr ⟨ht, hdec⟩
        rw [hupd1] at hmem
        exact absurd hmem (List.not_mem_nil t)
      have hcur0 : isCurrentTicker input
          (export_ticker_data_from_mongo st.watermarks) t = true := by
        cases hct : isCurrentTicker input
            (export_ticker_data_from_mongo st.watermarks) t with
        | true => rfl
        | false =>
          exfalso
          apply hnotupd
          rw [hlook0, hct]
          rfl
      have hmx0 : mx ≤ w0.latest_date := by
        rw [isCurrentTicker, hmx, hlook0] at hcur0
        exact of_decide_eq_true hcur0
      cases hfa : (aggregateIncremental
          (get_data_scoped st.disk [y] [m]) []).find?
          (fun a => decide (a.ticker = w0.ticker)) with
      | none =>
        rw [merge_artifact_of_find?_none hfa]
        exact hmx0
      | some b =>
        rw [merge_artifact_of_find?_some hfa]
        have hsomeb := List.find?_some hfa
        have hbt : b.ticker = w0.ticker := of_decide_eq_true hsomeb
        have hbl := aggregateIncremental_latest _ _ b (List.mem_of_find?_eq_some hfa)
        rw [hbt, hw0t] at hbl
        exact hdisk t mx b.latest_date hmx hbl
  have hwm1ne : (run_etl true input y m st).finalState.watermarks ≠ [] := by
    rw [hw1', update_stock_artifacts]
    intro h
    rcases List.append_eq_nil.mp h with ⟨h1, -⟩
    exact hwm (List.map_eq_nil_iff.mp h1)
  have hexp1 : export_ticker_data_from_mongo
      ((run_etl true input y m st).finalState.watermarks) ≠ [] := by
    intro h
    rw [export_ticker_data_from_mongo] at h
    exact hwm1ne (List.map_eq_nil_iff.mp h)
  have hnew2 : (validate_file_to_write input (export_ticker_data_from_mongo
      ((run_etl true input y m st).finalState.watermarks))).tickers_new = [] := by
    rw [validate_tickers_new input _ hexp1, List.filter_eq_nil_iff]
    intro t ht
    obtain ⟨d1, hd1v, -⟩ := hcur2 t ht
    rw [hd1v]
    simp
  have hupd2 : (validate_file_to_write input (export_ticker_data_from_mongo
      ((run_etl true input y m st).finalState.watermarks))).tickers_update = [] := by
    rw [validate_tickers_update input _ hexp1, List.filter_eq_nil_iff]
    intro t ht
    obtain ⟨d1, hd1v, hled⟩ := hcur2 t ht
    obtain ⟨mx, hmx⟩ := maxDateTime_isSome_of_mem ht
    have hc : isCurrentTicker input (export_ticker_data_from_mongo
        ((run_etl true input y m st).finalState.watermarks)) t = true := by
      rw [isCurrentTicker, hmx, hd1v]
      exact decide_eq_true (hled mx hmx)
    rw [hc, hd1v]
    simp
  have hskip2 : (validate_file_to_write input (export_ticker_data_from_mongo
      ((run_etl true input y m st).finalState.watermarks))).skip_writing = true := by
    rw [validate_skip_writing input _ hexp1, hnew2, hupd2]
    rfl
  obtain ⟨hd2, hw2, hs2⟩ := run_etl_skip_state true input y m
      (run_etl true input y m st).finalState hin hskip2
  refine ⟨hs2, ?_⟩
  rw [hw2, validate_mode_append input _ hexp1, hnew2, hd1]
  have hcs : create_save_stock_data_artifacts "append" [] y m st.disk
      ((run_etl true input y m st).finalState.watermarks) =
    update_stock_artifacts ((run_etl true input y m st).finalState.watermarks)
      (aggregateIncremental (get_data_scoped st.disk [y] [m]) []) := rfl
  rw [hcs, hw1']
  exact update_stock_artifacts_idem st.watermarks _ haggnodup haggnone

/-- C6 counterexample: a watermark store that is already current (the first
run classifies nothing new or updated and skips) for which the second run
does NOT skip and the stored watermark values change.  The store holds
`latest_date = 100` for ticker `A` while the month-scoped disk data only
reaches `date_time = 50`; the input reaches `80`.  Run 1 skips (80 ≤ 100)
but its aggregation step lowers the stored `latest_date` to 50, so run 2
classifies `A` as updated, writes, and advances the watermark. -/
theorem noop_idempotence_counterexample :
    (validate_file_to_write [⟨"A", 80, 2024, 2⟩]
      (export_ticker_data_from_mongo [⟨"A", 1, some 50, 100⟩])).skip_writing
        = true ∧
    (run_etl true [⟨"A", 80, 2024, 2⟩] 2024 2
      (ETLState.mk [⟨"A", 50, 2024, 2⟩] [⟨"A", 1, some 50, 100⟩])).skip_writing
        = true ∧
    ¬ ((run_etl true [⟨"A", 80, 2024, 2⟩] 2024 2
          (run_etl true [⟨"A", 80, 2024, 2⟩] 2024 2
            (ETLState.mk [⟨"A", 50, 2024, 2⟩]
              [⟨"A", 1, some 50, 100⟩])).finalState).skip_writing = true ∧
       (run_etl true [⟨"A", 80, 2024, 2⟩] 2024 2
          (run_etl true [⟨"A", 80, 2024, 2⟩] 2024 2
            (ETLState.mk [⟨"A", 50, 2024, 2⟩]
              [⟨"A", 1, some 50, 100⟩])).finalState).finalState.watermarks =
         (run_etl true [⟨"A", 80, 2024, 2⟩] 2024 2
            (ETLState.mk [⟨"A", 50, 2024, 2⟩]
              [⟨"A", 1, some 50, 100⟩])).finalState.watermarks) := by
  refine ⟨by decide, by decide, ?_⟩
  rintro ⟨h1, -⟩
  exact absurd h1 (by decide)

theorem noop_idempotence_amended_witness :
    (([⟨"A", 80, 2024, 2⟩] : List Row) ≠ [] ∧
     (ETLState.mk [] [⟨"A", 1, some 80, 80⟩]).watermarks ≠ [] ∧
     (validate_file_to_write [⟨"A", 80, 2024, 2⟩]
        (export_ticker_data_from_mongo
          (ETLState.mk [] [⟨"A", 1, some 80, 80⟩]).watermarks)).skip_writing
            = true) ∧
    ((run_etl true [⟨"A", 80, 2024, 2⟩] 2024 2
        (run_etl true [⟨"A", 80, 2024, 2⟩] 2024 2
          (ETLState.mk [] [⟨"A", 1, some 80, 80⟩])).finalState).skip_writing
            = true ∧
     (run_etl true [⟨"A", 80, 2024, 2⟩] 2024 2
        (run_etl true [⟨"A", 80, 2024, 2⟩] 2024 2
          (ETLState.mk [] [⟨"A", 1, some 80, 80⟩])).finalState).finalState.watermarks =
      (run_etl true [⟨"A", 80, 2024, 2⟩] 2024 2
        (ETLState.mk [] [⟨"A", 1, some 80, 80⟩])).finalState.watermarks) :=
  ⟨⟨by decide, by decide, by decide⟩,
    noop_idempotence_amended [⟨"A", 80, 2024, 2⟩] 2024 2
      (ETLState.mk [] [⟨"A", 1, some 80, 80⟩]) (by decide) (by decide) (by decide)
      (fun t mx dmax h1 h2 =>
        absurd h2 (by simp [maxDateTime, tickerRows, get_data_scoped]))⟩
